import Mathlib

/-!
Verification of the memory-monitor and sync-helper components of the
skills-cozodb-connector repository, via a shallow embedding of the
JavaScript source (src/scripts/memory-monitor.js and the sync helper in
src/unnamed/part_009) into Lean.

Modelling conventions:
* JavaScript values relevant to these components are modelled by `JsPrim`
  (scalars, including `null`, `undefined` and `NaN`) and flat objects
  `JsObj` (association lists of key/scalar pairs; object-valued fields do
  not occur in the data these components exchange).  JS numbers are
  modelled as integers; non-integer numbers and numeric-string coercion
  are outside the model.
* Asynchronous calls (`fetch`, backend `run`, local-store reads) are
  suspension points; their outcomes, and anything other tasks do at those
  points, are passed to the embedded functions as explicit parameters.
* Caller-supplied callbacks are modelled by configuration flags plus an
  emitted event trace (`MonEvent` / `SyncEvent`); the conflict hook, whose
  return value matters, is modelled as an optional function.
* `Date.now()` and random sync-id generation are modelled by explicit
  `now` / `syncId` parameters.
-/

/-- Scalar JavaScript values as they occur in this code base. -/
inductive JsPrim where
  | undef
  | null
  | nan
  | num (n : Int)
  | str (s : String)
deriving DecidableEq, Repr

/-- A flat JavaScript object: ordered key/value entries.  Keys of objects
built by the JS runtime are unique; the list form also represents the
entry sequences produced by `Object.entries`. -/
abbrev JsObj := List (String × JsPrim)

/-- A JavaScript value handed to `JSON.stringify` in this code base:
a scalar or a flat object. -/
inductive JsVal where
  | prim (p : JsPrim)
  | obj (o : JsObj)
deriving DecidableEq, Repr

/-- Property access `o[k]` on the entry list, first match (keys of real JS
objects are unique, so first match is the unique match). -/
def objGet? (o : JsObj) (k : String) : Option JsPrim :=
  match o with
  | [] => none
  | p :: rest => if p.1 = k then some p.2 else objGet? rest k

/-- Property access `o.k`: `undefined` when the key is absent. -/
def objGetV (o : JsObj) (k : String) : JsPrim :=
  (objGet? o k).getD JsPrim.undef

/-- Overwrite of one key, as done by a trailing `k: v` entry in an object
literal: the result looks up to `v` at `k` and to the base object
elsewhere. -/
def objSet (o : JsObj) (k : String) (v : JsPrim) : JsObj :=
  (k, v) :: o.filter (fun p => p.1 ≠ k)

/-- Object spread `{...a, ...b}`: `b`'s entries shadow `a`'s. -/
def objSpread (a b : JsObj) : JsObj :=
  b ++ a.filter (fun p => (objGet? b p.1).isNone)

/-- The JS loose test `v != null`, which is false exactly for `null` and
`undefined`. -/
def isNonNullish : JsPrim → Bool
  | JsPrim.null => false
  | JsPrim.undef => false
  | _ => true

/-- `Object.entries(o).filter(([_, v]) => v != null)`. -/
def nonNullEntries (o : JsObj) : JsObj :=
  o.filter (fun p => isNonNullish p.2)

/-- JS `Number(v)` coercion on the values this code compares: numbers map
to themselves, `null` to `0`; `undefined` and `NaN` have no numeric value
(NaN).  Numeric-string coercion is not modelled (treated as NaN); the
timestamps this code compares are numbers. -/
def toNumber : JsPrim → Option Int
  | JsPrim.num n => some n
  | JsPrim.null => some 0
  | _ => none

/-- JS `>` on two values: numeric comparison, false when either side is
NaN. -/
def jsGt (a b : JsPrim) : Bool :=
  match toNumber a, toNumber b with
  | some x, some y => decide (x > y)
  | _, _ => false

/-- `Math.max(a, b)`: NaN when either operand has no numeric value. -/
def jsMathMax (a b : JsPrim) : JsPrim :=
  match toNumber a, toNumber b with
  | some x, some y => JsPrim.num (max x y)
  | _, _ => JsPrim.nan

/-- Lower-case hexadecimal digit, as emitted by `JSON.stringify` escape
sequences. -/
def hexDigit (n : Nat) : Char :=
  if n < 10 then Char.ofNat (48 + n) else Char.ofNat (87 + n)

/-- JSON string escaping of one character, per `JSON.stringify`. -/
def escapeJsonChar (c : Char) : String :=
  if c = '"' then "\\\""
  else if c = '\\' then "\\\\"
  else if c = '\n' then "\\n"
  else if c = '\r' then "\\r"
  else if c = '\t' then "\\t"
  else if c.toNat = 8 then "\\b"
  else if c.toNat = 12 then "\\f"
  else if c.toNat < 32 then
    "\\u00" ++ String.mk [hexDigit (c.toNat / 16), hexDigit (c.toNat % 16)]
  else String.mk [c]

/-- A JSON string literal with quotes, per `JSON.stringify`. -/
def jsonQuote (s : String) : String :=
  "\"" ++ String.join (s.toList.map escapeJsonChar) ++ "\""

/-- `JSON.stringify` on a scalar: `undefined` serializes to no string at
all (JS returns `undefined`), `NaN` serializes as `null`. -/
def jsonOfPrim : JsPrim → Option String
  | JsPrim.undef => none
  | JsPrim.null => some "null"
  | JsPrim.nan => some "null"
  | JsPrim.num n => some (toString n)
  | JsPrim.str s => some (jsonQuote s)

/-- `JSON.stringify` on a flat object: entries with `undefined` values are
omitted. -/
def jsonOfObj (o : JsObj) : String :=
  let parts := o.filterMap fun p => (jsonOfPrim p.2).map fun v => jsonQuote p.1 ++ ":" ++ v
  "\x7b" ++ String.intercalate "," parts ++ "\x7d"

/-- `JSON.stringify` on a value; `none` models the JS `undefined` result
(on which a subsequent `.length` access would throw). -/
def jsonStringify : JsVal → Option String
  | JsVal.prim p => jsonOfPrim p
  | JsVal.obj o => some (jsonOfObj o)

/-- `DEFAULT_OPTIONS.estimateMultiplier` (2.5).  The JS multiplier is a
double; it is modelled as the rational it denotes exactly. -/
def defaultMultiplier : ℚ := 5 / 2

/-- `estimateDataSize(data, multiplier)` from memory-monitor.js:
`Math.ceil(JSON.stringify(data).length * multiplier)`.  `none` models the
TypeError JS raises when `JSON.stringify` returns `undefined`. -/
def estimateDataSize (data : JsVal) (multiplier : ℚ := defaultMultiplier) : Option Int :=
  (jsonStringify data).map fun s => Int.ceil ((s.length : ℚ) * multiplier)

example : jsonStringify (JsVal.obj []) = some "\x7b\x7d" := rfl

example : estimateDataSize (JsVal.obj []) defaultMultiplier = some 5 := by
  have h : jsonStringify (JsVal.obj []) = some "\x7b\x7d" := rfl
  have hlen : ("\x7b\x7d" : String).length = 2 := rfl
  simp [estimateDataSize, h, hlen, defaultMultiplier]
  norm_num

example : estimateDataSize (JsVal.prim (JsPrim.str "")) defaultMultiplier = some 5 := by
  have h : jsonStringify (JsVal.prim (JsPrim.str "")) = some "\"\"" := rfl
  have hlen : ("\"\"" : String).length = 2 := rfl
  simp [estimateDataSize, h, hlen, defaultMultiplier]
  norm_num

/-- Memory status band, as classified by `getMemoryStatus`. -/
inductive MemStatus where
  | ok
  | warning
  | critical
deriving DecidableEq, Repr

/-- `createMemoryState(bytesWritten, rowCount)` — the frozen snapshot with
its creation timestamp (`Date.now()` passed explicitly). -/
structure MemoryState where
  bytesWritten : Int
  rowCount : Int
  createdAt : Int
deriving DecidableEq, Repr

def createMemoryState (bytesWritten rowCount : Int) (now : Int) : MemoryState :=
  { bytesWritten := bytesWritten, rowCount := rowCount, createdAt := now }

/-- Monitor configuration after merging `DEFAULT_OPTIONS` with caller
options.  Callbacks are modelled by presence flags; `isWasm` selects only
between two encodings of the same backend call and is not modelled. -/
structure MonitorConfig where
  maxBytes : Int
  warningThreshold : ℚ
  criticalThreshold : ℚ
  hasOnWarning : Bool
  hasOnCritical : Bool
  hasOnOverflow : Bool

/-- `calculateUsagePercent(bytesWritten, maxBytes)`:
`Math.min(bytesWritten / maxBytes, 1.0)`.  The division is exact rational
division; `maxBytes = 0` (JS Infinity/NaN) is outside the model. -/
def calculateUsagePercent (bytesWritten maxBytes : Int) : ℚ :=
  min ((bytesWritten : ℚ) / (maxBytes : ℚ)) 1

/-- `getMemoryStatus(usagePercent, options)`. -/
def getMemoryStatus (usagePercent : ℚ) (cfg : MonitorConfig) : MemStatus :=
  if usagePercent ≥ cfg.criticalThreshold then MemStatus.critical
  else if usagePercent ≥ cfg.warningThreshold then MemStatus.warning
  else MemStatus.ok

/-- The band the monitor would classify a memory state into right now. -/
def classifyState (cfg : MonitorConfig) (ms : MemoryState) : MemStatus :=
  getMemoryStatus (calculateUsagePercent ms.bytesWritten cfg.maxBytes) cfg

/-- Callback invocations observable from one threshold check. -/
inductive MonEvent where
  | warningFired
  | criticalFired
  | overflowFired
deriving DecidableEq, Repr

/-- `checkThresholds()`: classifies the current state, fires `onWarning` /
`onCritical` only on a status change, updates `lastStatus`, then fires
`onOverflow` whenever `bytesWritten > maxBytes`.  Returns the new
`lastStatus` and the fired events in order. -/
def checkThresholds (cfg : MonitorConfig) (ms : MemoryState) (lastStatus : MemStatus) :
    MemStatus × List MonEvent :=
  let usagePercent := calculateUsagePercent ms.bytesWritten cfg.maxBytes
  let currentStatus := getMemoryStatus usagePercent cfg
  let fired :=
    if currentStatus ≠ lastStatus then
      if currentStatus = MemStatus.warning ∧ cfg.hasOnWarning = true then [MonEvent.warningFired]
      else if currentStatus = MemStatus.critical ∧ cfg.hasOnCritical = true then
        [MonEvent.criticalFired]
      else []
    else []
  let newLast := if currentStatus ≠ lastStatus then currentStatus else lastStatus
  let overflow :=
    if ms.bytesWritten > cfg.maxBytes ∧ cfg.hasOnOverflow = true then [MonEvent.overflowFired]
    else []
  (newLast, fired ++ overflow)

/-- The result object of a backend `run` call; only the `rows` array is
inspected by the monitor, the rest is opaque and forwarded unchanged. -/
structure BackendResult where
  rows : Option (List JsVal)
  body : JsVal
deriving DecidableEq

/-- `result.rows?.length || 1`: `1` when `rows` is absent or empty. -/
def rowIncrement (r : BackendResult) : Int :=
  match r.rows with
  | some rs => if rs.length = 0 then 1 else (rs.length : Int)
  | none => 1

/-- Whether the second character list starts the first. -/
def startsWithList : List Char → List Char → Bool
  | _, [] => true
  | [], _ :: _ => false
  | a :: as, b :: bs => a = b && startsWithList as bs

/-- Whether the second character list occurs somewhere in the first
(the substring test behind JS `String.includes`). -/
def hasSubList : List Char → List Char → Bool
  | [], sub => sub.isEmpty
  | a :: t, sub => startsWithList (a :: t) sub || hasSubList t sub

/-- `query.includes(':put') || query.includes(':create')`: the query
denotes a mutating operation (data write or schema creation). -/
def isMutation (query : String) : Bool :=
  hasSubList query.toList ":put".toList || hasSubList query.toList ":create".toList

/-- The monitor's encapsulated mutable state: the current `MemoryState`
snapshot and the last observed status. -/
structure MonState where
  ms : MemoryState
  lastStatus : MemStatus
deriving DecidableEq, Repr

/-- `run(query, params)`: executes the query on the wrapped backend (the
backend itself, a suspension point, is the explicit function `db`; the
WASM string-encoding adapter encodes/decodes the same call and is not
distinguished).  For a mutating query the estimated sizes of query and
params are added to `bytesWritten`, `rowCount` grows by the result's row
count, and thresholds are re-evaluated; otherwise the counters are
untouched.  Query strings and params objects always serialize, so the
`getD 0` default is unreachable. -/
def run (cfg : MonitorConfig) (db : String → JsObj → BackendResult)
    (s : MonState) (query : String) (params : JsObj) (now : Int) :
    MonState × List MonEvent × BackendResult :=
  let querySize := (estimateDataSize (JsVal.prim (JsPrim.str query)) defaultMultiplier).getD 0
  let paramsSize := (estimateDataSize (JsVal.obj params) defaultMultiplier).getD 0
  let result := db query params
  if isMutation query then
    let writeSize := querySize + paramsSize
    let ms2 := createMemoryState (s.ms.bytesWritten + writeSize)
      (s.ms.rowCount + rowIncrement result) now
    let checked := checkThresholds cfg ms2 s.lastStatus
    ({ ms := ms2, lastStatus := checked.1 }, checked.2, result)
  else (s, [], result)

/-- `trackBytes(bytes)`: adds to the byte count without executing a query,
then re-evaluates thresholds. -/
def trackBytes (cfg : MonitorConfig) (s : MonState) (bytes : Int) (now : Int) :
    MonState × List MonEvent :=
  let ms2 := createMemoryState (s.ms.bytesWritten + bytes) s.ms.rowCount now
  let checked := checkThresholds cfg ms2 s.lastStatus
  ({ ms := ms2, lastStatus := checked.1 }, checked.2)

/-- `reset()`: zeroes the counters and restarts classification at `ok`. -/
def reset (now : Int) : MonState :=
  { ms := createMemoryState 0 0 now, lastStatus := MemStatus.ok }

/-- One externally triggered operation on the monitor that can track
writes: a `run` call or a `trackBytes` call. -/
inductive TrackOp where
  | runQ (query : String) (params : JsObj) (now : Int)
  | track (n : Int) (now : Int)

/-- Whether the operation is a tracked write (a mutating `run`, or any
`trackBytes`). -/
def isTrackedWrite : TrackOp → Bool
  | TrackOp.runQ q _ _ => isMutation q
  | TrackOp.track _ _ => true

/-- One monitor step: dispatches the operation, returning the new state
and the fired events (the backend result of a `run` is dropped here). -/
def monStep (cfg : MonitorConfig) (db : String → JsObj → BackendResult)
    (s : MonState) (op : TrackOp) : MonState × List MonEvent :=
  match op with
  | TrackOp.runQ q p now =>
    let r := run cfg db s q p now
    (r.1, r.2.1)
  | TrackOp.track n now => trackBytes cfg s n now

/-- `isLocalNewer(localRecord, serverRecord)`: strict `>` on `updatedAt`. -/
def isLocalNewer (localRecord serverRecord : JsObj) : Bool :=
  jsGt (objGetV localRecord "updatedAt") (objGetV serverRecord "updatedAt")

/-- `resolveConflict(local, server, strategy)`.  The switch over the
strategy string; `merge` spreads the server record, overlays the non-null
entries of the local record, and overrides `updatedAt` with
`Math.max(local.updatedAt, server.updatedAt)`; every other strategy name
returns the server record. -/
def resolveConflict (localRec serverRec : JsObj) (strategy : String) : JsObj :=
  if strategy = "local" then localRec
  else if strategy = "server" then serverRec
  else if strategy = "merge" then
    objSet (objSpread serverRec (nonNullEntries localRec)) "updatedAt"
      (jsMathMax (objGetV localRec "updatedAt") (objGetV serverRec "updatedAt"))
  else serverRec

/-- `createSyncRecord(id, data, clientId)`: `data` is kept when already a
string, else JSON-stringified (`none` models the JS `undefined` stored
when the data cannot be stringified); `updatedAt` is `Date.now() / 1000`
in seconds. -/
structure SyncRecord where
  id : JsPrim
  data : Option String
  clientId : String
  updatedAt : ℚ
  syncId : String
deriving DecidableEq, Repr

def createSyncRecord (id : JsPrim) (data : JsVal) (clientId : String)
    (nowMs : Int) (syncId : String) : SyncRecord :=
  let dataStr := match data with
    | JsVal.prim (JsPrim.str s) => some s
    | v => jsonStringify v
  { id := id, data := dataStr, clientId := clientId,
    updatedAt := (nowMs : ℚ) / 1000, syncId := syncId }

/-- One element of the pending queue: `{tableName, operation, record}`. -/
structure PendingEntry where
  tableName : String
  operation : String
  record : SyncRecord
deriving DecidableEq, Repr

/-- The sync manager's mutable state: `lastSyncTime`, `pendingQueue`,
`isSyncing`. -/
structure SyncState where
  lastSyncTime : ℚ
  pendingQueue : List PendingEntry
  isSyncing : Bool
deriving DecidableEq, Repr

/-- Sync configuration.  `onSyncStart`/`onSyncComplete`/`onSyncError` are
modelled by presence flags and an event trace; `onConflict`, whose return
value steers the pull loop, is the optional resolution hook itself. -/
structure SyncConfig where
  serverUrl : String
  clientId : String
  conflictStrategy : String
  onConflict : Option (JsObj → JsObj → JsPrim)
  hasOnSyncStart : Bool
  hasOnSyncComplete : Bool
  hasOnSyncError : Bool

/-- Hook invocations observable from one sync-manager call. -/
inductive SyncEvent where
  | syncStart
  | syncComplete
  | syncError
  | conflictHook
deriving DecidableEq, Repr

/-- `if (onSyncError) onSyncError(e)`. -/
def errEvents (cfg : SyncConfig) : List SyncEvent :=
  if cfg.hasOnSyncError then [SyncEvent.syncError] else []

/-- `queueChange(tableName, id, data, operation)`: appends a freshly
created record to the pending queue. -/
def queueChange (cfg : SyncConfig) (st : SyncState) (tableName : String)
    (id : JsPrim) (data : JsVal) (operation : String) (nowMs : Int) (syncId : String) :
    SyncState × String :=
  let record := createSyncRecord id data cfg.clientId nowMs syncId
  let entry : PendingEntry := { tableName := tableName, operation := operation, record := record }
  ({ st with pendingQueue := st.pendingQueue ++ [entry] }, record.syncId)

/-- `getStatus()`: the read-only projection of the manager state. -/
structure SyncStatus where
  clientId : String
  lastSyncTime : ℚ
  pendingCount : Nat
  isSyncing : Bool
deriving DecidableEq, Repr

def getStatus (cfg : SyncConfig) (st : SyncState) : SyncStatus :=
  { clientId := cfg.clientId, lastSyncTime := st.lastSyncTime,
    pendingCount := st.pendingQueue.length, isSyncing := st.isSyncing }

/-- Outcome of an awaited `fetch` (plus response-body read): the promise
rejects, or a response with the given HTTP status arrives. -/
inductive FetchOutcome where
  | netThrow
  | resp (status : Nat)
deriving DecidableEq, Repr

/-- `response.ok`: status in the 2xx range. -/
def statusOk (status : Nat) : Bool :=
  decide (200 ≤ status) && decide (status ≤ 299)

/-- A push/pull call failing with this outcome (network error or non-2xx
status). -/
def fetchFailed : FetchOutcome → Bool
  | FetchOutcome.netThrow => true
  | FetchOutcome.resp s => !statusOk s

/-- The transport errors push/pull raise: a rejected fetch, or the
`Error` built from a non-2xx status. -/
inductive SyncError where
  | network
  | http (status : Nat)
deriving DecidableEq, Repr

structure PushResult where
  pushed : Nat
deriving DecidableEq, Repr

/-- `push(tableName)`.  The snapshot of queued entries for the table is
taken at call start; with an empty snapshot the call is a no-op before any
fetch.  Otherwise the snapshot is sent; `during` is the list of entries
other tasks append to the queue while the fetch (and response decoding)
is awaited.  On failure `onSyncError` fires and the error is re-raised;
on success every entry for the table in the then-current queue is
removed.  The opaque `serverResponse` body is not modelled. -/
def push (cfg : SyncConfig) (st : SyncState) (tableName : String)
    (during : List PendingEntry) (outcome : FetchOutcome) :
    SyncState × List SyncEvent × Except SyncError PushResult :=
  let pendingForTable := st.pendingQueue.filter (fun p => p.tableName == tableName)
  if pendingForTable.length = 0 then (st, [], Except.ok { pushed := 0 })
  else
    let queueAfterAwait := st.pendingQueue ++ during
    match outcome with
    | FetchOutcome.netThrow =>
      ({ st with pendingQueue := queueAfterAwait }, errEvents cfg, Except.error SyncError.network)
    | FetchOutcome.resp status =>
      if statusOk status then
        ({ st with pendingQueue := queueAfterAwait.filter (fun p => p.tableName != tableName) },
         [], Except.ok { pushed := pendingForTable.length })
      else
        ({ st with pendingQueue := queueAfterAwait }, errEvents cfg,
         Except.error (SyncError.http status))

/-- Outcome of the local-store read performed by `getLocalRecord`: the
query threw, or returned these rows (each a value array parallel to
`fields`). -/
inductive LocalReadOutcome where
  | threw
  | rows (rs : List (List JsPrim))

/-- The record object `getLocalRecord` assembles from the first row:
`fields.forEach((f, i) => record[f] = rows[0][i])`, later assignments
overwriting earlier ones. -/
def assembleRecord (fields : List String) (row : List JsPrim) : JsObj :=
  (fields.enum).foldl (fun acc p => objSet acc p.2 (row.getD p.1 JsPrim.undef)) []

/-- `getLocalRecord(tableName, id, fields)`: `null` when the query throws
or returns no rows, else the record assembled from the first row.  The
query string itself is part of the suspended local-store call modelled by
the outcome. -/
def getLocalRecord (outcome : LocalReadOutcome) (fields : List String) : Option JsObj :=
  match outcome with
  | LocalReadOutcome.threw => none
  | LocalReadOutcome.rows [] => none
  | LocalReadOutcome.rows (r :: _) => some (assembleRecord fields r)

/-- A write issued to the local store by `applyToLocal(tableName, record,
fields)`; the `:put` query built from the record is the store's concern
and the record itself is what the claims are about. -/
structure LocalMutation where
  tableName : String
  record : JsObj
deriving DecidableEq, Repr

/-- The body of the pull loop for one remote item: read the local copy
(`reads` maps the item's `id` to the read outcome), detect a conflict via
`isLocalNewer`, let the optional `onConflict` hook skip the item, else
apply the strategy-resolved record; without a conflict apply the remote
item directly.  Returns the emitted local write, the `applied` counter
increment, and the hook invocations. -/
def pullItem (cfg : SyncConfig) (tableName : String) (fields : List String)
    (reads : JsPrim → LocalReadOutcome) (item : JsObj) :
    List LocalMutation × Nat × List SyncEvent :=
  match getLocalRecord (reads (objGetV item "id")) fields with
  | some localData =>
    if isLocalNewer localData item then
      match cfg.onConflict with
      | some h =>
        if h localData item = JsPrim.str "skip" then ([], 0, [SyncEvent.conflictHook])
        else ([{ tableName := tableName,
                 record := resolveConflict localData item cfg.conflictStrategy }], 1,
              [SyncEvent.conflictHook])
      | none =>
        ([{ tableName := tableName,
            record := resolveConflict localData item cfg.conflictStrategy }], 1, [])
    else ([{ tableName := tableName, record := item }], 1, [])
  | none => ([{ tableName := tableName, record := item }], 1, [])

/-- Outcome of the awaited pull fetch: rejection, or a response with this
status whose decoded body is `{items, serverTime}`. -/
inductive PullFetchOutcome where
  | netThrow
  | resp (status : Nat) (items : List JsObj) (serverTime : Option ℚ)

/-- `serverTime || Date.now() / 1000`: the fallback also applies to a
(falsy) server time of `0`. -/
def jsOrElseQ (a : Option ℚ) (b : ℚ) : ℚ :=
  match a with
  | some x => if x = 0 then b else x
  | none => b

structure PullResult where
  pulled : Nat
deriving DecidableEq, Repr

/-- `pull(tableName, fields)`: on transport failure `onSyncError` fires,
the error is re-raised and the state is untouched; on success each item
runs through the pull loop and `lastSyncTime` advances to the server time
(or the local clock when absent/falsy). -/
def pull (cfg : SyncConfig) (st : SyncState) (tableName : String) (fields : List String)
    (outcome : PullFetchOutcome) (reads : JsPrim → LocalReadOutcome) (nowMs : Int) :
    SyncState × List LocalMutation × List SyncEvent × Except SyncError PullResult :=
  match outcome with
  | PullFetchOutcome.netThrow =>
    (st, [], errEvents cfg, Except.error SyncError.network)
  | PullFetchOutcome.resp status items serverTime =>
    if statusOk status then
      let folded := items.foldl (fun acc item =>
        let r := pullItem cfg tableName fields reads item
        (acc.1 ++ r.1, acc.2.1 + r.2.1, acc.2.2 ++ r.2.2)) ([], 0, [])
      ({ st with lastSyncTime := jsOrElseQ serverTime ((nowMs : ℚ) / 1000) },
       folded.1, folded.2.2, Except.ok { pulled := folded.2.1 })
    else (st, [], errEvents cfg, Except.error (SyncError.http status))

/-- The single-flight guard at the top of `sync()`: `none` when a cycle is
already in flight, else the state with the `isSyncing` flag taken. -/
def syncGuard (st : SyncState) : Option SyncState :=
  if st.isSyncing then none else some { st with isSyncing := true }

/-- The value `sync()` settles with. -/
inductive SyncOutcome where
  | skipped
  | completed (pushed : Nat) (pulled : Nat) (timestamp : Int)
  | errored (e : SyncError)
deriving DecidableEq, Repr

/-- `sync(tableName, fields)`: immediately returns `{skipped: true}` when
already syncing; otherwise runs push then pull under the taken flag,
firing `onSyncStart` first and `onSyncComplete` on success, and always
releasing the flag (`finally`) before settling.  The repeated `Date.now()`
readings are collapsed into `nowMs`. -/
def sync (cfg : SyncConfig) (st : SyncState) (tableName : String) (fields : List String)
    (during : List PendingEntry) (pushOut : FetchOutcome) (pullOut : PullFetchOutcome)
    (reads : JsPrim → LocalReadOutcome) (nowMs : Int) :
    SyncState × List LocalMutation × List SyncEvent × SyncOutcome :=
  match syncGuard st with
  | none => (st, [], [], SyncOutcome.skipped)
  | some st1 =>
    let evStart := if cfg.hasOnSyncStart then [SyncEvent.syncStart] else []
    match push cfg st1 tableName during pushOut with
    | (st2, evPush, Except.error e) =>
      ({ st2 with isSyncing := false }, [], evStart ++ evPush, SyncOutcome.errored e)
    | (st2, evPush, Except.ok pres) =>
      match pull cfg st2 tableName fields pullOut reads nowMs with
      | (st3, muts, evPull, Except.error e) =>
        ({ st3 with isSyncing := false }, muts, evStart ++ evPush ++ evPull,
         SyncOutcome.errored e)
      | (st3, muts, evPull, Except.ok plres) =>
        let evDone := if cfg.hasOnSyncComplete then [SyncEvent.syncComplete] else []
        ({ st3 with isSyncing := false }, muts, evStart ++ evPush ++ evPull ++ evDone,
         SyncOutcome.completed pres.pushed plres.pulled nowMs)


theorem objGet?_nil (k : String) : objGet? [] k = none := rfl

theorem objGet?_cons (p : String × JsPrim) (rest : JsObj) (k : String) :
    objGet? (p :: rest) k = if p.1 = k then some p.2 else objGet? rest k := rfl

/-- Filtering by a predicate that depends only on the key either keeps
every entry of a key or drops them all, so lookup commutes with it. -/
theorem objGet?_filterKey (f : String → Bool) (a : JsObj) (k : String) :
    objGet? (a.filter (fun p => f p.1)) k = if f k then objGet? a k else none := by
  induction a with
  | nil => simp [objGet?_nil]
  | cons hd tl ih =>
    by_cases hk : hd.1 = k
    · subst hk
      by_cases hf : f hd.1
      · simp [List.filter_cons, hf, objGet?_cons]
      · simp [List.filter_cons, hf, ih]
    · by_cases hf : f hd.1
      · simp [List.filter_cons, hf, objGet?_cons, hk, ih]
      · simp [List.filter_cons, hf, ih, objGet?_cons, hk]

/-- Looking a key up after filtering away the entries of another key is
the same as looking it up directly. -/
theorem objGet?_filterNe (o : JsObj) (k k' : String) (h : k' ≠ k) :
    objGet? (o.filter (fun p => p.1 ≠ k)) k' = objGet? o k' := by
  have hgen := objGet?_filterKey (fun s => decide (s ≠ k)) o k'
  simp only [decide_eq_true_eq] at hgen
  rw [hgen, if_pos h]

/-- The key written by `objSet` reads back as written. -/
theorem objGet?_objSet_self (o : JsObj) (k : String) (v : JsPrim) :
    objGet? (objSet o k v) k = some v := by
  simp [objSet, objGet?_cons]

/-- Keys other than the one written by `objSet` are unaffected. -/
theorem objGet?_objSet_ne (o : JsObj) (k k' : String) (v : JsPrim) (h : k' ≠ k) :
    objGet? (objSet o k v) k' = objGet? o k' := by
  unfold objSet
  rw [objGet?_cons]
  have hne : ¬((k, v).1 = k') := fun hc => h hc.symm
  rw [if_neg hne]
  exact objGet?_filterNe o k k' h

theorem objGet?_append (a b : JsObj) (k : String) :
    objGet? (a ++ b) k =
      match objGet? a k with
      | some v => some v
      | none => objGet? b k := by
  induction a with
  | nil => rfl
  | cons hd tl ih =>
    by_cases hk : hd.1 = k
    · simp [objGet?_cons, hk]
    · simp [objGet?_cons, hk, ih]

/-- Lookup through an object spread: the overlay wins where it has the
key, the base answers elsewhere. -/
theorem objGet?_objSpread (a b : JsObj) (k : String) :
    objGet? (objSpread a b) k =
      match objGet? b k with
      | some v => some v
      | none => objGet? a k := by
  unfold objSpread
  rw [objGet?_append]
  cases hb : objGet? b k with
  | some v => simp
  | none =>
    have hgen := objGet?_filterKey (fun s => (objGet? b s).isNone) a k
    simp only [hb, Option.isNone_none] at hgen
    simp [hgen]

/-- A key absent from the entry list looks up to nothing. -/
theorem objGet?_eq_none_of_notMem (o : JsObj) (k : String)
    (h : k ∉ o.map Prod.fst) : objGet? o k = none := by
  induction o with
  | nil => rfl
  | cons hd tl ih =>
    simp only [List.map_cons, List.mem_cons] at h
    push_neg at h
    have hk : hd.1 ≠ k := fun hc => h.1 hc.symm
    simp [objGet?_cons, hk, ih h.2]

/-- Under unique keys, lookup through the non-null filter keeps exactly
the non-nullish bindings. -/
theorem objGet?_nonNullEntries (o : JsObj) (k : String)
    (h : (o.map Prod.fst).Nodup) :
    objGet? (nonNullEntries o) k =
      match objGet? o k with
      | some v => if isNonNullish v then some v else none
      | none => none := by
  induction o with
  | nil => rfl
  | cons hd tl ih =>
    simp only [List.map_cons, List.nodup_cons] at h
    have htail := ih h.2
    simp only [nonNullEntries] at htail
    by_cases hk : hd.1 = k
    · subst hk
      by_cases hv : isNonNullish hd.2
      · simp [nonNullEntries, List.filter_cons, hv, objGet?_cons]
      · have htl : objGet? tl hd.1 = none := objGet?_eq_none_of_notMem tl hd.1 h.1
        simp [nonNullEntries, List.filter_cons, hv, objGet?_cons, htail, htl]
    · by_cases hv : isNonNullish hd.2
      · simp [nonNullEntries, List.filter_cons, hv, objGet?_cons, hk, htail]
      · simp [nonNullEntries, List.filter_cons, hv, htail, objGet?_cons, hk]

/-- Claim C7: `resolveConflict` returns the local record for strategy
"local" and the server record for strategy "server"; "merge" starts from
the server record, overlays every non-null/absent local field, and sets
`updatedAt` to the maximum of the two timestamps; every unknown strategy
name behaves like "server"; and the function is pure and deterministic. -/
theorem c7_resolveConflict_spec (l r : JsObj) :
    resolveConflict l r "local" = l ∧
    resolveConflict l r "server" = r ∧
    (∀ s : String, s ≠ "local" → s ≠ "merge" → resolveConflict l r s = r) ∧
    (∀ la ra : Int, objGetV l "updatedAt" = JsPrim.num la →
      objGetV r "updatedAt" = JsPrim.num ra →
      objGetV (resolveConflict l r "merge") "updatedAt" = JsPrim.num (max la ra)) ∧
    ((l.map Prod.fst).Nodup → ∀ k : String, k ≠ "updatedAt" →
      objGetV (resolveConflict l r "merge") k =
        if isNonNullish (objGetV l k) then objGetV l k else objGetV r k) ∧
    (∀ l' r' : JsObj, ∀ s : String, l = l' → r = r' →
      resolveConflict l r s = resolveConflict l' r' s) := by
  refine ⟨?_, ?_, ?_, ?_, ?_, ?_⟩
  · simp [resolveConflict]
  · simp [resolveConflict]
  · intro s h1 h2
    by_cases hs : s = "server" <;> simp [resolveConflict, h1, h2, hs]
  · intro la ra hla hra
    have hmerge : resolveConflict l r "merge" =
        objSet (objSpread r (nonNullEntries l)) "updatedAt"
          (jsMathMax (objGetV l "updatedAt") (objGetV r "updatedAt")) := by
      simp [resolveConflict]
    rw [hmerge]
    rw [objGetV, objGet?_objSet_self, hla, hra]
    simp [jsMathMax, toNumber]
  · intro hnodup k hk
    have hmerge : resolveConflict l r "merge" =
        objSet (objSpread r (nonNullEntries l)) "updatedAt"
          (jsMathMax (objGetV l "updatedAt") (objGetV r "updatedAt")) := by
      simp [resolveConflict]
    rw [hmerge]
    rw [objGetV, objGet?_objSet_ne _ _ _ _ hk, objGet?_objSpread,
      objGet?_nonNullEntries l k hnodup]
    cases hl : objGet? l k with
    | none => simp [objGetV, hl, isNonNullish]
    | some v =>
      by_cases hv : isNonNullish v
      · simp [objGetV, hl, hv]
      · simp [objGetV, hl, hv]
  · intro l' r' s hl hr
    rw [hl, hr]

/-- Concrete inputs for the C7 witness: a local record with a newer
timestamp and a null field, and a server record with values for both. -/
def lC7 : JsObj := [("updatedAt", JsPrim.num 200), ("x", JsPrim.null)]

def rC7 : JsObj := [("updatedAt", JsPrim.num 100), ("x", JsPrim.num 7)]

theorem c7_witness :
    resolveConflict lC7 rC7 "local" = lC7 ∧
    resolveConflict lC7 rC7 "unknown-strategy" = rC7 ∧
    objGetV (resolveConflict lC7 rC7 "merge") "updatedAt" = JsPrim.num 200 ∧
    objGetV (resolveConflict lC7 rC7 "merge") "x" = JsPrim.num 7 := by
  have h := c7_resolveConflict_spec lC7 rC7
  refine ⟨h.1, h.2.2.1 "unknown-strategy" (by decide) (by decide), ?_, ?_⟩
  · have := h.2.2.2.1 200 100 (by decide) (by decide)
    simpa using this
  · have := h.2.2.2.2.1 (by decide) "x" (by decide)
    rw [this]
    decide

/-- Claim C9: for every serializable value and positive multiplier,
`estimateDataSize` returns exactly the non-negative integer
`ceil(length(serialization) * multiplier)` (hence at least that bound);
it is deterministic, and an empty object or empty string still yields a
strictly positive estimate. -/
theorem c9_estimateDataSize_spec (v : JsVal) (m : ℚ) (s : String)
    (hm : 0 < m) (hs : jsonStringify v = some s) :
    estimateDataSize v m = some (Int.ceil ((s.length : ℚ) * m)) ∧
    (∀ k : Int, estimateDataSize v m = some k →
      0 ≤ k ∧ Int.ceil ((s.length : ℚ) * m) ≤ k) ∧
    (∀ k : Int, estimateDataSize (JsVal.obj []) m = some k → 0 < k) ∧
    (∀ k : Int, estimateDataSize (JsVal.prim (JsPrim.str "")) m = some k → 0 < k) ∧
    (∀ v' : JsVal, ∀ m' : ℚ, v = v' → m = m' →
      estimateDataSize v m = estimateDataSize v' m') := by
  have heq : estimateDataSize v m = some (Int.ceil ((s.length : ℚ) * m)) := by
    simp [estimateDataSize, hs]
  refine ⟨heq, ?_, ?_, ?_, ?_⟩
  · intro k hk
    rw [heq] at hk
    have hk' : Int.ceil ((s.length : ℚ) * m) = k := Option.some.inj hk
    subst hk'
    refine ⟨Int.ceil_nonneg ?_, le_refl _⟩
    have h0 : (0 : ℚ) ≤ (s.length : ℚ) := by positivity
    exact mul_nonneg h0 hm.le
  · intro k hk
    have hj : jsonStringify (JsVal.obj []) = some "\x7b\x7d" := rfl
    have hlen : ("\x7b\x7d" : String).length = 2 := rfl
    simp only [estimateDataSize, hj, Option.map_some', hlen, Option.some.injEq] at hk
    rw [← hk]
    rw [Int.lt_ceil]
    push_cast
    nlinarith
  · intro k hk
    have hj : jsonStringify (JsVal.prim (JsPrim.str "")) = some "\"\"" := rfl
    have hlen : ("\"\"" : String).length = 2 := rfl
    simp only [estimateDataSize, hj, Option.map_some', hlen, Option.some.injEq] at hk
    rw [← hk]
    rw [Int.lt_ceil]
    push_cast
    nlinarith
  · intro v' m' hv hm'
    rw [hv, hm']

theorem c9_witness :
    estimateDataSize (JsVal.obj [("a", JsPrim.num 1)]) (5 / 2) = some 18 ∧
    (0 : Int) ≤ 18 := by
  have hs : jsonStringify (JsVal.obj [("a", JsPrim.num 1)]) = some "\x7b\"a\":1\x7d" := rfl
  have h := c9_estimateDataSize_spec (JsVal.obj [("a", JsPrim.num 1)]) (5 / 2)
    "\x7b\"a\":1\x7d" (by norm_num) hs
  have hlen : ("\x7b\"a\":1\x7d" : String).length = 7 := rfl
  refine ⟨?_, by norm_num⟩
  rw [h.1, hlen]
  norm_num
  rw [Int.ceil_eq_iff]
  norm_num

/-- What one threshold check does: the recorded status becomes the current
classification; `onWarning`/`onCritical` fire only on a change of
classification and into their own band; `onOverflow` fires exactly when
the byte count exceeds the limit and the callback is set. -/
theorem checkThresholds_spec (cfg : MonitorConfig) (ms : MemoryState) (last : MemStatus) :
    (checkThresholds cfg ms last).1 = classifyState cfg ms ∧
    (MonEvent.warningFired ∈ (checkThresholds cfg ms last).2 →
      classifyState cfg ms ≠ last ∧ classifyState cfg ms = MemStatus.warning) ∧
    (MonEvent.criticalFired ∈ (checkThresholds cfg ms last).2 →
      classifyState cfg ms ≠ last ∧ classifyState cfg ms = MemStatus.critical) ∧
    (MonEvent.overflowFired ∈ (checkThresholds cfg ms last).2 ↔
      (ms.bytesWritten > cfg.maxBytes ∧ cfg.hasOnOverflow = true)) ∧
    (classifyState cfg ms = last →
      MonEvent.warningFired ∉ (checkThresholds cfg ms last).2 ∧
      MonEvent.criticalFired ∉ (checkThresholds cfg ms last).2) := by
  unfold checkThresholds classifyState
  by_cases h1 : getMemoryStatus (calculateUsagePercent ms.bytesWritten cfg.maxBytes) cfg = last <;>
    by_cases h2 : getMemoryStatus (calculateUsagePercent ms.bytesWritten cfg.maxBytes) cfg =
      MemStatus.warning <;>
    by_cases h3 : getMemoryStatus (calculateUsagePercent ms.bytesWritten cfg.maxBytes) cfg =
      MemStatus.critical <;>
    by_cases h4 : cfg.hasOnWarning = true <;>
    by_cases h5 : cfg.hasOnCritical = true <;>
    by_cases h6 : ms.bytesWritten > cfg.maxBytes ∧ cfg.hasOnOverflow = true <;>
    simp_all

/-- Claim C4: across any tracked write (mutating `run` or `trackBytes`),
`onWarning`/`onCritical` are edge-triggered: they fire only when the
classification after the write differs from the previously recorded
status (and into their own band); a tracked write records the new
classification, so a write that keeps the classification unchanged fires
neither callback. -/
theorem c4_state_callbacks_edge_triggered (cfg : MonitorConfig)
    (db : String → JsObj → BackendResult) (s s' : MonState) (op : TrackOp)
    (evs : List MonEvent) (h : monStep cfg db s op = (s', evs)) :
    (MonEvent.warningFired ∈ evs →
      classifyState cfg s'.ms ≠ s.lastStatus ∧
      classifyState cfg s'.ms = MemStatus.warning) ∧
    (MonEvent.criticalFired ∈ evs →
      classifyState cfg s'.ms ≠ s.lastStatus ∧
      classifyState cfg s'.ms = MemStatus.critical) ∧
    (isTrackedWrite op = true → s'.lastStatus = classifyState cfg s'.ms) ∧
    (s.lastStatus = classifyState cfg s.ms →
      classifyState cfg s'.ms = classifyState cfg s.ms →
      MonEvent.warningFired ∉ evs ∧ MonEvent.criticalFired ∉ evs) := by
  cases op with
  | track n now =>
    simp only [monStep, trackBytes] at h
    rw [Prod.ext_iff] at h
    obtain ⟨h1, h2⟩ := h
    subst h1
    subst h2
    have hspec := checkThresholds_spec cfg
      (createMemoryState (s.ms.bytesWritten + n) s.ms.rowCount now) s.lastStatus
    refine ⟨fun hw => hspec.2.1 hw, fun hc => hspec.2.2.1 hc, fun _ => hspec.1, ?_⟩
    intro hlast hsame
    exact hspec.2.2.2.2 (by rw [hsame, ← hlast])
  | runQ q p now =>
    by_cases hm : isMutation q
    · simp only [monStep, run, hm, if_true] at h
      rw [Prod.ext_iff] at h
      obtain ⟨h1, h2⟩ := h
      subst h1
      subst h2
      have hspec := checkThresholds_spec cfg
        (createMemoryState
          (s.ms.bytesWritten +
            ((estimateDataSize (JsVal.prim (JsPrim.str q)) defaultMultiplier).getD 0 +
             (estimateDataSize (JsVal.obj p) defaultMultiplier).getD 0))
          (s.ms.rowCount + rowIncrement (db q p)) now) s.lastStatus
      refine ⟨fun hw => hspec.2.1 hw, fun hc => hspec.2.2.1 hc, fun _ => hspec.1, ?_⟩
      intro hlast hsame
      exact hspec.2.2.2.2 (by rw [hsame, ← hlast])
    · simp only [monStep, run, hm, if_false] at h
      rw [Prod.ext_iff] at h
      obtain ⟨h1, h2⟩ := h
      subst h1
      subst h2
      refine ⟨by simp, by simp, ?_, by simp⟩
      intro ht
      simp only [isTrackedWrite] at ht
      exact absurd ht hm

/-- Concrete monitor configuration for the C4 witness (scenario A of the
spec: 500-byte limit, warn at 10%, critical at 95%, all callbacks set). -/
def cfgC4 : MonitorConfig :=
  { maxBytes := 500, warningThreshold := 1 / 10, criticalThreshold := 95 / 100,
    hasOnWarning := true, hasOnCritical := true, hasOnOverflow := true }

def dbC4 : String → JsObj → BackendResult := fun _ _ =>
  { rows := none, body := JsVal.obj [] }

def sC4 : MonState :=
  { ms := { bytesWritten := 0, rowCount := 0, createdAt := 0 }, lastStatus := MemStatus.ok }

theorem c4_witness :
    MonEvent.warningFired ∈ (monStep cfgC4 dbC4 sC4 (TrackOp.track 100 0)).2 ∧
    MonEvent.warningFired ∉
      (monStep cfgC4 dbC4 (monStep cfgC4 dbC4 sC4 (TrackOp.track 100 0)).1
        (TrackOp.track 100 0)).2 ∧
    MonEvent.criticalFired ∉
      (monStep cfgC4 dbC4 (monStep cfgC4 dbC4 sC4 (TrackOp.track 100 0)).1
        (TrackOp.track 100 0)).2 := by
  have e1 : monStep cfgC4 dbC4 sC4 (TrackOp.track 100 0) =
      ({ ms := { bytesWritten := 100, rowCount := 0, createdAt := 0 },
         lastStatus := MemStatus.warning }, [MonEvent.warningFired]) := by
    norm_num [monStep, trackBytes, checkThresholds, calculateUsagePercent,
      getMemoryStatus, createMemoryState, cfgC4, sC4]
    all_goals decide
  have e2 : monStep cfgC4 dbC4
      ({ ms := { bytesWritten := 100, rowCount := 0, createdAt := 0 },
         lastStatus := MemStatus.warning } : MonState) (TrackOp.track 100 0) =
      ({ ms := { bytesWritten := 200, rowCount := 0, createdAt := 0 },
         lastStatus := MemStatus.warning }, []) := by
    norm_num [monStep, trackBytes, checkThresholds, calculateUsagePercent,
      getMemoryStatus, createMemoryState, cfgC4]
  have h := c4_state_callbacks_edge_triggered cfgC4 dbC4
    { ms := { bytesWritten := 100, rowCount := 0, createdAt := 0 },
      lastStatus := MemStatus.warning }
    { ms := { bytesWritten := 200, rowCount := 0, createdAt := 0 },
      lastStatus := MemStatus.warning }
    (TrackOp.track 100 0) [] e2
  have h4 := h.2.2.2
    (by norm_num [classifyState, calculateUsagePercent, getMemoryStatus, cfgC4])
    (by norm_num [classifyState, calculateUsagePercent, getMemoryStatus, cfgC4])
  refine ⟨by simp [e1], ?_, ?_⟩
  · simp only [e1, e2]
    exact h4.1
  · simp only [e1, e2]
    exact h4.2

/-- Claim C5: `onOverflow` is level-triggered: on every tracked write it
fires exactly when the byte count after the write exceeds `maxBytes` (and
the callback is configured), independent of any band transition. -/
theorem c5_overflow_level_triggered (cfg : MonitorConfig)
    (db : String → JsObj → BackendResult) (s s' : MonState) (op : TrackOp)
    (evs : List MonEvent) (h : monStep cfg db s op = (s', evs))
    (ht : isTrackedWrite op = true) :
    MonEvent.overflowFired ∈ evs ↔
      (s'.ms.bytesWritten > cfg.maxBytes ∧ cfg.hasOnOverflow = true) := by
  cases op with
  | track n now =>
    simp only [monStep, trackBytes] at h
    rw [Prod.ext_iff] at h
    obtain ⟨h1, h2⟩ := h
    subst h1
    subst h2
    exact (checkThresholds_spec cfg
      (createMemoryState (s.ms.bytesWritten + n) s.ms.rowCount now) s.lastStatus).2.2.2.1
  | runQ q p now =>
    by_cases hm : isMutation q
    · simp only [monStep, run, hm, if_true] at h
      rw [Prod.ext_iff] at h
      obtain ⟨h1, h2⟩ := h
      subst h1
      subst h2
      exact (checkThresholds_spec cfg
        (createMemoryState
          (s.ms.bytesWritten +
            ((estimateDataSize (JsVal.prim (JsPrim.str q)) defaultMultiplier).getD 0 +
             (estimateDataSize (JsVal.obj p) defaultMultiplier).getD 0))
          (s.ms.rowCount + rowIncrement (db q p)) now) s.lastStatus).2.2.2.1
    · simp only [isTrackedWrite] at ht
      exact absurd ht hm

def cfgC5 : MonitorConfig :=
  { maxBytes := 500, warningThreshold := 1 / 10, criticalThreshold := 95 / 100,
    hasOnWarning := true, hasOnCritical := true, hasOnOverflow := true }

def dbC5 : String → JsObj → BackendResult := fun _ _ =>
  { rows := none, body := JsVal.obj [] }

def sC5 : MonState :=
  { ms := { bytesWritten := 450, rowCount := 0, createdAt := 0 },
    lastStatus := MemStatus.warning }

theorem c5_witness :
    MonEvent.overflowFired ∈ (monStep cfgC5 dbC5 sC5 (TrackOp.track 100 0)).2 ∧
    MonEvent.overflowFired ∈
      (monStep cfgC5 dbC5 (monStep cfgC5 dbC5 sC5 (TrackOp.track 100 0)).1
        (TrackOp.track 1 0)).2 := by
  constructor
  · exact (c5_overflow_level_triggered cfgC5 dbC5 sC5
      (monStep cfgC5 dbC5 sC5 (TrackOp.track 100 0)).1 (TrackOp.track 100 0)
      (monStep cfgC5 dbC5 sC5 (TrackOp.track 100 0)).2 rfl rfl).mpr (by decide)
  · exact (c5_overflow_level_triggered cfgC5 dbC5
      (monStep cfgC5 dbC5 sC5 (TrackOp.track 100 0)).1
      (monStep cfgC5 dbC5 (monStep cfgC5 dbC5 sC5 (TrackOp.track 100 0)).1
        (TrackOp.track 1 0)).1 (TrackOp.track 1 0)
      (monStep cfgC5 dbC5 (monStep cfgC5 dbC5 sC5 (TrackOp.track 100 0)).1
        (TrackOp.track 1 0)).2 rfl rfl).mpr (by decide)

/-- Claim C8: `run` hands query and params to the wrapped backend and
returns that backend's result; exactly for a mutating query it adds the
two size estimates to `bytesWritten`, increments `rowCount` by the
result's row count (1 when the result carries no rows), and re-evaluates
the thresholds; a non-mutating query changes no counters and fires no
callback. -/
theorem c8_run_passthrough_and_tracking (cfg : MonitorConfig)
    (db : String → JsObj → BackendResult) (s : MonState) (q : String)
    (p : JsObj) (now : Int) :
    (run cfg db s q p now).2.2 = db q p ∧
    (isMutation q = true →
      (run cfg db s q p now).1.ms.bytesWritten = s.ms.bytesWritten +
        (estimateDataSize (JsVal.prim (JsPrim.str q)) defaultMultiplier).getD 0 +
        (estimateDataSize (JsVal.obj p) defaultMultiplier).getD 0 ∧
      (run cfg db s q p now).1.ms.rowCount = s.ms.rowCount + rowIncrement (db q p) ∧
      (run cfg db s q p now).1.lastStatus =
        (checkThresholds cfg (run cfg db s q p now).1.ms s.lastStatus).1 ∧
      (run cfg db s q p now).2.1 =
        (checkThresholds cfg (run cfg db s q p now).1.ms s.lastStatus).2) ∧
    (isMutation q = false →
      (run cfg db s q p now).1 = s ∧ (run cfg db s q p now).2.1 = []) := by
  by_cases hm : isMutation q
  · refine ⟨by simp [run, hm], fun _ => ?_, fun hf => absurd hm (by simp [hf])⟩
    refine ⟨?_, ?_, ?_, ?_⟩
    · simp only [run, hm, if_true, createMemoryState]
      ring
    · simp [run, hm, createMemoryState]
    · simp [run, hm, createMemoryState]
    · simp [run, hm, createMemoryState]
  · simp [run, hm]

def cfgC8 : MonitorConfig :=
  { maxBytes := 1000000, warningThreshold := 8 / 10, criticalThreshold := 95 / 100,
    hasOnWarning := true, hasOnCritical := true, hasOnOverflow := true }

def dbC8 : String → JsObj → BackendResult := fun _ _ =>
  { rows := none, body := JsVal.obj [] }

def sC8 : MonState :=
  { ms := { bytesWritten := 0, rowCount := 0, createdAt := 0 }, lastStatus := MemStatus.ok }

theorem c8_witness :
    (run cfgC8 dbC8 sC8 ":put x" [] 0).2.2 = dbC8 ":put x" [] ∧
    (run cfgC8 dbC8 sC8 ":put x" [] 0).1.ms.rowCount = 1 ∧
    (run cfgC8 dbC8 sC8 "?[a]" [] 0).1 = sC8 := by
  have h := c8_run_passthrough_and_tracking cfgC8 dbC8 sC8 ":put x" [] 0
  have h2 := c8_run_passthrough_and_tracking cfgC8 dbC8 sC8 "?[a]" [] 0
  refine ⟨h.1, ?_, (h2.2.2 (by decide)).1⟩
  have hr := (h.2.1 (by decide)).2.1
  rw [hr]
  decide

/-- A pull call failing with this outcome (network error or non-2xx). -/
def pullFetchFailed : PullFetchOutcome → Bool
  | PullFetchOutcome.netThrow => true
  | PullFetchOutcome.resp s _ _ => !statusOk s

/-- Claim C1: a push or pull whose transport fails (rejected fetch or
non-2xx status) fires `onSyncError` and re-raises, and the manager state
it leaves behind is exactly the state before the call plus whatever other
tasks queued meanwhile: the pending queue, `pendingCount` and
`lastSyncTime` are untouched by the failed call itself, so the operation
is retryable. -/
theorem c1_transport_failure_preserves_state (cfg : SyncConfig) (st : SyncState)
    (t : String) (fields : List String) (reads : JsPrim → LocalReadOutcome)
    (nowMs : Int) (during : List PendingEntry) (pOut : FetchOutcome)
    (plOut : PullFetchOutcome)
    (hq : st.pendingQueue.filter (fun p => p.tableName == t) ≠ [])
    (hp : fetchFailed pOut = true) (hpl : pullFetchFailed plOut = true) :
    (∃ e, push cfg st t during pOut =
      ({ st with pendingQueue := st.pendingQueue ++ during }, errEvents cfg,
       Except.error e)) ∧
    (∃ e, push cfg st t [] pOut = (st, errEvents cfg, Except.error e)) ∧
    (getStatus cfg (push cfg st t [] pOut).1).pendingCount =
      (getStatus cfg st).pendingCount ∧
    (push cfg st t [] pOut).1.lastSyncTime = st.lastSyncTime ∧
    (∃ e, pull cfg st t fields plOut reads nowMs =
      (st, [], errEvents cfg, Except.error e)) := by
  have hlen : ¬(st.pendingQueue.filter (fun p => p.tableName == t)).length = 0 := by
    simpa [List.length_eq_zero] using hq
  have key : ∀ d : List PendingEntry, ∃ e, push cfg st t d pOut =
      ({ st with pendingQueue := st.pendingQueue ++ d }, errEvents cfg,
       Except.error e) := by
    intro d
    cases pOut with
    | netThrow => exact ⟨SyncError.network, by simp [push, hlen]⟩
    | resp s =>
      simp only [fetchFailed, Bool.not_eq_true'] at hp
      exact ⟨SyncError.http s, by simp [push, hlen, hp]⟩
  have hst : ({ st with pendingQueue := st.pendingQueue ++ [] } : SyncState) = st := by
    cases st
    simp
  obtain ⟨e1, he1⟩ := key during
  obtain ⟨e2, he2⟩ := key []
  have he2' : push cfg st t [] pOut = (st, errEvents cfg, Except.error e2) := by
    rw [he2, hst]
  have hfst : (push cfg st t [] pOut).1 = st := by rw [he2']
  refine ⟨⟨e1, he1⟩, ⟨e2, he2'⟩, by rw [hfst], by rw [hfst], ?_⟩
  cases plOut with
  | netThrow => exact ⟨SyncError.network, by simp [pull]⟩
  | resp s items stime =>
    simp only [pullFetchFailed, Bool.not_eq_true'] at hpl
    exact ⟨SyncError.http s, by simp [pull, hpl]⟩

/-- Configuration and state for the C1 witness: one change queued for
table "notes" (scenario C of the spec), `onSyncError` configured. -/
def cfgC1 : SyncConfig :=
  { serverUrl := "http://s", clientId := "c1", conflictStrategy := "server",
    onConflict := none, hasOnSyncStart := false, hasOnSyncComplete := false,
    hasOnSyncError := true }

def stC1 : SyncState :=
  (queueChange cfgC1 { lastSyncTime := 0, pendingQueue := [], isSyncing := false }
    "notes" (JsPrim.num 1) (JsVal.obj [("v", JsPrim.num 1)]) "put" 0 "sid-1").1

theorem c1_witness :
    (getStatus cfgC1 stC1).pendingCount = 1 ∧
    (∃ e, push cfgC1 stC1 "notes" [] (FetchOutcome.resp 500) =
      (stC1, [SyncEvent.syncError], Except.error e)) ∧
    (getStatus cfgC1 (push cfgC1 stC1 "notes" [] (FetchOutcome.resp 500)).1).pendingCount =
      1 := by
  have hq : stC1.pendingQueue.filter (fun p => p.tableName == "notes") ≠ [] := by
    simp [stC1, queueChange, createSyncRecord]
  have h := c1_transport_failure_preserves_state cfgC1 stC1 "notes" ["id"]
    (fun _ => LocalReadOutcome.threw) 0 [] (FetchOutcome.resp 500)
    (PullFetchOutcome.resp 500 [] none) hq (by decide) (by decide)
  have hcount : (getStatus cfgC1 stC1).pendingCount = 1 := by
    simp [stC1, queueChange, getStatus]
  have herr : errEvents cfgC1 = [SyncEvent.syncError] := rfl
  obtain ⟨e2, he2⟩ := h.2.1
  refine ⟨hcount, ⟨e2, by rw [he2, herr]⟩, ?_⟩
  rw [show (push cfgC1 stC1 "notes" [] (FetchOutcome.resp 500)).1 = stC1 from by rw [he2]]
  exact hcount

/-- Claim C2 (amended): a successful `push(table)` sends exactly the
snapshot taken at call start, but removes from the queue every entry for
that table present when the response is processed — entries queued for
the same table during the awaited request are dropped as well (without
having been pushed); entries for other tables all remain. -/
theorem c2_amended_push_success_removes_by_table (cfg : SyncConfig) (st : SyncState)
    (t : String) (during : List PendingEntry) (status : Nat)
    (hq : st.pendingQueue.filter (fun p => p.tableName == t) ≠ [])
    (hok : statusOk status = true) :
    push cfg st t during (FetchOutcome.resp status) =
      ({ st with pendingQueue :=
          (st.pendingQueue ++ during).filter (fun p => p.tableName != t) }, [],
       Except.ok { pushed := (st.pendingQueue.filter (fun p => p.tableName == t)).length }) ∧
    (∀ p ∈ during, p.tableName ≠ t →
      p ∈ (push cfg st t during (FetchOutcome.resp status)).1.pendingQueue) ∧
    (∀ p, p.tableName = t →
      p ∉ (push cfg st t during (FetchOutcome.resp status)).1.pendingQueue) := by
  have hlen : ¬(st.pendingQueue.filter (fun p => p.tableName == t)).length = 0 := by
    simpa [List.length_eq_zero] using hq
  have hmain : push cfg st t during (FetchOutcome.resp status) =
      ({ st with pendingQueue :=
          (st.pendingQueue ++ during).filter (fun p => p.tableName != t) }, [],
       Except.ok { pushed := (st.pendingQueue.filter (fun p => p.tableName == t)).length }) := by
    simp [push, hlen, hok]
  refine ⟨hmain, ?_, ?_⟩
  · intro p hp hne
    rw [hmain]
    simp only [List.mem_filter, List.mem_append]
    exact ⟨Or.inr hp, by simp [hne]⟩
  · intro p hpt
    rw [hmain]
    simp only [List.mem_filter]
    rintro ⟨-, hcond⟩
    simp [hpt] at hcond

def cfgC2 : SyncConfig :=
  { serverUrl := "http://s", clientId := "c1", conflictStrategy := "server",
    onConflict := none, hasOnSyncStart := false, hasOnSyncComplete := false,
    hasOnSyncError := false }

/-- The entry already queued for table "notes" when `push` starts. -/
def entryC2a : PendingEntry :=
  { tableName := "notes", operation := "put",
    record := { id := JsPrim.num 1, data := some "a", clientId := "c1",
                updatedAt := 100, syncId := "s1" } }

/-- The entry another task queues for the same table while the push fetch
is awaited. -/
def entryC2b : PendingEntry :=
  { tableName := "notes", operation := "put",
    record := { id := JsPrim.num 2, data := some "b", clientId := "c1",
                updatedAt := 101, syncId := "s2" } }

/-- An entry queued during the await for a different table. -/
def entryC2c : PendingEntry :=
  { tableName := "todos", operation := "put",
    record := { id := JsPrim.num 3, data := some "c", clientId := "c1",
                updatedAt := 102, syncId := "s3" } }

def stC2 : SyncState :=
  { lastSyncTime := 0, pendingQueue := [entryC2a], isSyncing := false }

/-- Counterexample to claim C2 as stated: `entryC2b` is queued for table
"notes" during the awaited request of a successful `push("notes")`, yet the
queue after the push is empty — the later-queued same-table entry does
NOT remain, because removal filters by table name on the queue as it is
after the await, not by the snapshot that was sent. -/
theorem c2_counterexample :
    entryC2b.tableName = "notes" ∧
    (push cfgC2 stC2 "notes" [entryC2b] (FetchOutcome.resp 200)).1.pendingQueue = [] ∧
    entryC2b ∉ (push cfgC2 stC2 "notes" [entryC2b] (FetchOutcome.resp 200)).1.pendingQueue := by
  refine ⟨rfl, ?_, ?_⟩
  · decide
  · decide

theorem c2_amended_witness :
    entryC2c ∈ (push cfgC2 stC2 "notes" [entryC2c] (FetchOutcome.resp 200)).1.pendingQueue ∧
    (push cfgC2 stC2 "notes" [entryC2c] (FetchOutcome.resp 200)).2.2 =
      Except.ok { pushed := 1 } := by
  have h := c2_amended_push_success_removes_by_table cfgC2 stC2 "notes" [entryC2c] 200
    (by decide) (by decide)
  constructor
  · exact h.2.1 entryC2c (by simp) (by decide)
  · rw [h.1]
    simp [stC2, entryC2a]

/-- Claim C3: for each pulled remote record, `pull` applies the remote
record directly when no local copy exists or the local copy is not
strictly newer (`isLocalNewer` is strict greater-than on `updatedAt`, so a
tie is not "newer"); when the local copy is strictly newer, a configured
conflict hook may answer "skip" to leave the record unapplied, and
otherwise the record resolved by the configured strategy is applied. -/
theorem c3_pull_conflict_resolution (cfg : SyncConfig) (t : String)
    (fields : List String) (reads : JsPrim → LocalReadOutcome) (item : JsObj) :
    (getLocalRecord (reads (objGetV item "id")) fields = none →
      pullItem cfg t fields reads item = ([{ tableName := t, record := item }], 1, [])) ∧
    (∀ l, getLocalRecord (reads (objGetV item "id")) fields = some l →
      isLocalNewer l item = false →
      pullItem cfg t fields reads item = ([{ tableName := t, record := item }], 1, [])) ∧
    (∀ l h, getLocalRecord (reads (objGetV item "id")) fields = some l →
      isLocalNewer l item = true → cfg.onConflict = some h →
      h l item = JsPrim.str "skip" →
      pullItem cfg t fields reads item = ([], 0, [SyncEvent.conflictHook])) ∧
    (∀ l h, getLocalRecord (reads (objGetV item "id")) fields = some l →
      isLocalNewer l item = true → cfg.onConflict = some h →
      h l item ≠ JsPrim.str "skip" →
      pullItem cfg t fields reads item =
        ([{ tableName := t, record := resolveConflict l item cfg.conflictStrategy }], 1,
         [SyncEvent.conflictHook])) ∧
    (∀ l, getLocalRecord (reads (objGetV item "id")) fields = some l →
      isLocalNewer l item = true → cfg.onConflict = none →
      pullItem cfg t fields reads item =
        ([{ tableName := t, record := resolveConflict l item cfg.conflictStrategy }], 1, [])) ∧
    (∀ a b : JsObj, objGetV a "updatedAt" = objGetV b "updatedAt" →
      isLocalNewer a b = false) := by
  refine ⟨?_, ?_, ?_, ?_, ?_, ?_⟩
  · intro hl
    simp [pullItem, hl]
  · intro l hl hnew
    simp [pullItem, hl, hnew]
  · intro l h hl hnew hc hskip
    simp [pullItem, hl, hnew, hc, hskip]
  · intro l h hl hnew hc hskip
    simp [pullItem, hl, hnew, hc, hskip]
  · intro l hl hnew hc
    simp [pullItem, hl, hnew, hc]
  · intro a b heq
    unfold isLocalNewer jsGt
    rw [heq]
    cases toNumber (objGetV b "updatedAt") with
    | none => simp
    | some n => simp

def cfgC3 : SyncConfig :=
  { serverUrl := "http://s", clientId := "c1", conflictStrategy := "server",
    onConflict := none, hasOnSyncStart := false, hasOnSyncComplete := false,
    hasOnSyncError := false }

/-- The pulled remote record of scenario B: `updatedAt` 100. -/
def itemC3 : JsObj := [("id", JsPrim.num 1), ("updatedAt", JsPrim.num 100)]

/-- A local store whose read returns a strictly newer row (`updatedAt`
200) for every id. -/
def readsC3 : JsPrim → LocalReadOutcome :=
  fun _ => LocalReadOutcome.rows [[JsPrim.num 1, JsPrim.num 200]]

theorem c3_witness :
    pullItem cfgC3 "notes" ["id", "updatedAt"] readsC3 itemC3 =
      ([{ tableName := "notes", record := itemC3 }], 1, []) := by
  have h := c3_pull_conflict_resolution cfgC3 "notes" ["id", "updatedAt"] readsC3 itemC3
  have hl : getLocalRecord (readsC3 (objGetV itemC3 "id")) ["id", "updatedAt"] =
      some [("updatedAt", JsPrim.num 200), ("id", JsPrim.num 1)] := by decide
  have hres := h.2.2.2.2.1 [("updatedAt", JsPrim.num 200), ("id", JsPrim.num 1)]
    hl (by decide) rfl
  rw [hres]
  decide

/-- Claim C10: when the local-store read for a record's id throws during
`pull`, the helper swallows the error and reports no local copy, so the
remote record is applied directly — no conflict detection, no hook, no
strategy — even though the same pull loop with a successful read of a
strictly newer row would have taken the conflict path. -/
theorem c10_local_read_error_applies_remote (cfg : SyncConfig) (t : String)
    (fields : List String) (item : JsObj) (reads : JsPrim → LocalReadOutcome)
    (hthrew : reads (objGetV item "id") = LocalReadOutcome.threw) :
    pullItem cfg t fields reads item = ([{ tableName := t, record := item }], 1, []) ∧
    getLocalRecord (reads (objGetV item "id")) fields = none ∧
    (∀ reads2 l, getLocalRecord (reads2 (objGetV item "id")) fields = some l →
      isLocalNewer l item = true → cfg.onConflict = none →
      pullItem cfg t fields reads2 item =
        ([{ tableName := t,
            record := resolveConflict l item cfg.conflictStrategy }], 1, [])) := by
  refine ⟨?_, ?_, ?_⟩
  · simp [pullItem, hthrew, getLocalRecord]
  · simp [hthrew, getLocalRecord]
  · intro reads2 l hl hnew hc
    simp [pullItem, hl, hnew, hc]

def cfgC10 : SyncConfig :=
  { serverUrl := "http://s", clientId := "c1", conflictStrategy := "server",
    onConflict := none, hasOnSyncStart := false, hasOnSyncComplete := false,
    hasOnSyncError := false }

def itemC10 : JsObj := [("id", JsPrim.num 9), ("updatedAt", JsPrim.num 50)]

theorem c10_witness :
    pullItem cfgC10 "notes" ["id", "updatedAt"] (fun _ => LocalReadOutcome.threw) itemC10 =
      ([{ tableName := "notes", record := itemC10 }], 1, []) := by
  exact (c10_local_read_error_applies_remote cfgC10 "notes" ["id", "updatedAt"] itemC10
    (fun _ => LocalReadOutcome.threw) rfl).1

/-- Claim C6: `sync` invoked while a cycle is in flight returns the
skipped result immediately — no push, no pull, no local writes, no hook
events, state untouched; a `sync` on an idle manager does execute the
cycle (its outcome is never "skipped"), and any `sync` entered at the
state the guard leaves behind (the state visible at every suspension
point of the running cycle) is skipped, so at most one push+pull cycle is
in flight and of two overlapping calls exactly one executes it. -/
theorem c6_sync_single_flight (cfg : SyncConfig) (st : SyncState) (t : String)
    (fields : List String) (during : List PendingEntry) (pOut : FetchOutcome)
    (plOut : PullFetchOutcome) (reads : JsPrim → LocalReadOutcome) (nowMs : Int) :
    (st.isSyncing = true →
      sync cfg st t fields during pOut plOut reads nowMs =
        (st, [], [], SyncOutcome.skipped)) ∧
    (st.isSyncing = false →
      (sync cfg st t fields during pOut plOut reads nowMs).2.2.2 ≠ SyncOutcome.skipped ∧
      (∀ st', syncGuard st = some st' →
        sync cfg st' t fields during pOut plOut reads nowMs =
          (st', [], [], SyncOutcome.skipped))) := by
  constructor
  · intro hbusy
    simp [sync, syncGuard, hbusy]
  · intro hfree
    constructor
    · rcases hpush : push cfg { st with isSyncing := true } t during pOut with ⟨st2, evp, r⟩
      cases r with
      | error e =>
        simp [sync, syncGuard, hfree, hpush]
      | ok pres =>
        rcases hpull : pull cfg st2 t fields plOut reads nowMs with ⟨st3, muts, evpl, r2⟩
        cases r2 with
        | error e => simp [sync, syncGuard, hfree, hpush, hpull]
        | ok plres => simp [sync, syncGuard, hfree, hpush, hpull]
    · intro st' hguard
      have hst' : st' = { st with isSyncing := true } := by
        simp [syncGuard, hfree] at hguard
        exact hguard.symm
      subst hst'
      simp [sync, syncGuard]

def cfgC6 : SyncConfig :=
  { serverUrl := "http://s", clientId := "c1", conflictStrategy := "server",
    onConflict := none, hasOnSyncStart := true, hasOnSyncComplete := true,
    hasOnSyncError := true }

def stBusyC6 : SyncState := { lastSyncTime := 0, pendingQueue := [], isSyncing := true }

def stIdleC6 : SyncState := { lastSyncTime := 0, pendingQueue := [], isSyncing := false }

theorem c6_witness :
    sync cfgC6 stBusyC6 "notes" ["id"] [] (FetchOutcome.resp 200)
      (PullFetchOutcome.resp 200 [] none) (fun _ => LocalReadOutcome.threw) 0 =
      (stBusyC6, [], [], SyncOutcome.skipped) ∧
    (sync cfgC6 stIdleC6 "notes" ["id"] [] (FetchOutcome.resp 200)
      (PullFetchOutcome.resp 200 [] none) (fun _ => LocalReadOutcome.threw) 0).2.2.2 ≠
      SyncOutcome.skipped ∧
    sync cfgC6 { stIdleC6 with isSyncing := true } "notes" ["id"] [] (FetchOutcome.resp 200)
      (PullFetchOutcome.resp 200 [] none) (fun _ => LocalReadOutcome.threw) 0 =
      ({ stIdleC6 with isSyncing := true }, [], [], SyncOutcome.skipped) := by
  have hbusy := (c6_sync_single_flight cfgC6 stBusyC6 "notes" ["id"] [] (FetchOutcome.resp 200)
    (PullFetchOutcome.resp 200 [] none) (fun _ => LocalReadOutcome.threw) 0).1 rfl
  have hidle := (c6_sync_single_flight cfgC6 stIdleC6 "notes" ["id"] [] (FetchOutcome.resp 200)
    (PullFetchOutcome.resp 200 [] none) (fun _ => LocalReadOutcome.threw) 0).2 rfl
  exact ⟨hbusy, hidle.1, hidle.2 _ rfl⟩
